import Mathlib

/-!
Shallow embedding of the game-end / replay-conversion path of the hanabi-live
server (`src/game_end.go`): `Game.End`, `Game.WriteDatabase` and
`Table.ConvertToSharedReplay`, together with theorems about the embedded
definitions.

Side effects (notification fan-out, persistence calls, registry mutation) are
made explicit as a trace of `Event` values; fallible persistence calls are
driven by a `DBEnv` record of oracle results.  Collaborators that live outside
the excerpt (variant/character static tables, `durationToString`, the
notification bus) are passed in as parameters or modelled from the spec where
noted.
-/

/-- A live connection handle.  Modelled from the spec: the SessionRegistry maps
a user to a connection handle (or none if offline) with an open/closed state. -/
structure Session where
  sid : Nat
  closed : Bool
deriving DecidableEq, Repr

/-- Coarse user status kept by the session registry (spec section 2). -/
inductive Status where
  | lobby
  | playing
  | spectating
  | sharedReplay
deriving DecidableEq, Repr

/-- Terminal end-condition tags.  Modelled from the spec: the constants
(`EndConditionNormal`, ... iota-ordered) are declared outside the excerpt; the
spec's data model lists the terminal tags `{Normal, Timeout, Terminated,
IdleTimeout, ...}` for a stopped game, with `Normal` the smallest code. -/
inductive EndCondition where
  | Normal
  | Strikeout
  | Timeout
  | Terminated
  | SpeedrunFail
  | IdleTimeout
deriving DecidableEq, Repr

/-- Numeric code of an end condition, mirroring the iota ordering with
`Normal` first among terminal tags. -/
def EndCondition.code : EndCondition → Nat
  | .Normal => 1
  | .Strikeout => 2
  | .Timeout => 3
  | .Terminated => 4
  | .SpeedrunFail => 5
  | .IdleTimeout => 6

/-- A card with suit/rank only (the payload of the deck-order action). -/
structure SimpleCard where
  suit : Int
  rank : Int
deriving DecidableEq, Repr

/-- A deck card: suit, rank and its stable deck-order id. -/
structure Card where
  suit : Int
  rank : Int
  order : Int
deriving DecidableEq, Repr

/-- Client-facing action records appended to `g.Actions` during the end
sequence (tagged variants, spec section 6). -/
inductive ClientAction where
  | deckOrder (deck : List SimpleCard)
  | text (s : String)
deriving DecidableEq, Repr

/-- Discriminant of a persisted `GameAction` (the numeric `ActionType*`
constants live outside the excerpt; only the game-over tag matters here). -/
inductive DBActionType where
  | gameOver
  | other (n : Nat)
deriving DecidableEq, Repr

/-- A persisted action record (`g.Actions2` elements / game-over pseudo-action). -/
structure GameAction where
  atype : DBActionType
  target : Int
  value : Nat
deriving DecidableEq, Repr

/-- Rule options of a game (`g.Options`); only the fields the excerpt reads. -/
structure Options where
  variant : String
  timed : Bool
  timeBase : Int
  timePerTurn : Int
  speedrun : Bool
  cardCycle : Bool
  deckPlays : Bool
  emptyClues : Bool
  characterAssignments : Bool
  replay : Bool
deriving DecidableEq, Repr

/-- An in-game player record (`g.Players` element). -/
structure GamePlayer where
  name : String
  index : Nat
  time : Int
  hand : List Card
  notes : List String
  character : String
  characterMetadata : Int
deriving DecidableEq, Repr

/-- A table-level player record (`t.Players` element). -/
structure Player where
  id : Int
  name : String
  present : Bool
  session : Option Session
deriving DecidableEq, Repr

/-- A spectator of a shared replay. -/
structure Spectator where
  id : Int
  name : String
  session : Option Session
  notes : List String
deriving DecidableEq, Repr

/-- Static per-variant metadata (`variants` map, loaded outside the excerpt);
`numSuits` stands for `len(variants[name].Suits)`. -/
structure VariantInfo where
  id : Int
  maxScore : Int
  numSuits : Nat
deriving DecidableEq, Repr

/-- Static per-character metadata (`characters` map, loaded outside the excerpt). -/
structure CharacterInfo where
  id : Int
deriving DecidableEq, Repr

/-- A chat message captured on the table transcript. -/
structure ChatMessage where
  userID : Int
  msg : String
deriving DecidableEq, Repr

/-- One best-score slot of a stats row.  Modelled from the spec: the stats rows
are defined by the storage collaborator; per section 4.3 a slot stores the best
score together with the modifier it was achieved under, and the rows returned
by `Get` are updated in place before `Update` writes them back. -/
structure BestScore where
  score : Int
  modifier : Int
deriving DecidableEq, Repr

/-- Per-user stats row, best scores indexed by player-count bucket. -/
structure UserStatsRow where
  bestScores : List BestScore
deriving DecidableEq, Repr

/-- Per-variant stats row, best scores indexed by player-count bucket. -/
structure VariantStatsRow where
  bestScores : List BestScore
deriving DecidableEq, Repr

/-- The row inserted for a finished game (`GameRow`). -/
structure GameRow where
  name : String
  numPlayers : Nat
  variant : Int
  timed : Bool
  timeBase : Int
  timePerTurn : Int
  speedrun : Bool
  cardCycle : Bool
  deckPlays : Bool
  emptyClues : Bool
  characterAssignments : Bool
  seed : String
  score : Int
  numTurns : Int
  endCondition : EndCondition
  datetimeStarted : Int
  datetimeFinished : Int
deriving DecidableEq, Repr

/-- The history snapshot broadcast to the players (`GameHistory`). -/
structure GameHistory where
  id : Int
  numPlayers : Nat
  variant : String
  timed : Bool
  timeBase : Int
  timePerTurn : Int
  speedrun : Bool
  cardCycle : Bool
  deckPlays : Bool
  emptyClues : Bool
  characterAssignments : Bool
  seed : String
  score : Int
  numTurns : Int
  endCondition : EndCondition
  datetimeStarted : Int
  datetimeFinished : Int
  numSimilar : Nat
  playerNames : String
  incrementNumGames : Bool
deriving DecidableEq, Repr

/-- The turn-indexed game state (`Game`); timestamps are integers. -/
structure Game where
  id : Int
  seed : String
  score : Int
  turn : Int
  endTurn : Int
  endCondition : EndCondition
  endPlayer : Int
  deck : List Card
  actions : List ClientAction
  actions2 : List GameAction
  options : Options
  players : List GamePlayer
  tags : List String
  datetimeStarted : Int
  datetimeFinished : Int
deriving DecidableEq, Repr

/-- The table owning a game (`Table`). -/
structure Table where
  id : Int
  name : String
  owner : Int
  players : List Player
  spectators : List Spectator
  replay : Bool
  progress : Int
  chat : List ChatMessage
  options : Options
deriving DecidableEq, Repr

/-- One observable side effect of the end/conversion path: a notification push,
a per-connection emit, a persistence call, or a table-registry deletion. -/
inductive Event where
  | notifyGameAction
  | notifyTurn
  | notifyGameOver
  | emitReveal (sid : Nat) (suit rank order : Int)
  | notifyAllTableGone
  | setStatus (sid : Nat) (st : Status)
  | notifyAllUser (sid : Nat)
  | dbInsertGame (row : GameRow)
  | dbInsertParticipant (gameID userID : Int) (index : Nat) (characterID : Int)
      (metadata : Int)
  | dbInsertNote (userID gameID : Int) (cardIndex : Nat) (note : String)
  | dbInsertAction (gameID : Int) (index : Nat) (a : GameAction)
  | dbInsertChat (userID : Int) (msg room : String)
  | dbInsertTag (gameID : Int) (tag : String)
  | dbGetUserStats (userID : Int)
  | dbUpdateUserStats (userID variantID : Int) (row : UserStatsRow)
  | dbGetVariantStats (variantID : Int)
  | dbUpdateVariantStats (variantID maxScore : Int) (row : VariantStatsRow)
  | dbGetNumSimilar (seed : String)
  | emitGameHistory (sid : Nat) (h : GameHistory)
  | notifyConnected
  | notifyReplayLeader (sid : Nat)
  | notifyNoteList (sid : Nat)
  | emitDatabaseID (sid : Nat) (tableID gameID : Int)
  | notifyAllTable
  | notifySpectators
  | deleteTable (tableID : Int)
deriving DecidableEq, Repr

/-- Oracle results of the fallible persistence calls. -/
structure DBEnv where
  insertGame : GameRow → Except Unit Int
  participantOk : Nat → Bool
  actionOk : Nat → Bool
  gameOverOk : Bool
  userStatsGet : Int → Except Unit UserStatsRow
  variantStatsGet : Except Unit VariantStatsRow
  variantStatsUpdateOk : Bool
  numSimilar : Except Unit Nat

/-- Emit to a per-user connection.  Modelled from the spec (section 6):
delivery to an offline user (null handle) is simply skipped, never queued; the
nil-check inside `Session.Emit` and the `Notify*` session methods lives outside
the excerpt. -/
def emitTo (s : Option Session) (mk : Nat → Event) : List Event :=
  match s with
  | none => []
  | some s => [mk s.sid]

/-- Mirror of `p.Session == nil || p.Session.IsClosed()`. -/
def sessionGone : Option Session → Bool
  | none => true
  | some s => s.closed

/-- Insertion sort on strings, standing in for `sort.Strings`. -/
def insertSorted (x : String) : List String → List String
  | [] => [x]
  | y :: ys => if x ≤ y then x :: y :: ys else y :: insertSorted x ys

/-- Sort a list of strings ascending (`sort.Strings`). -/
def sortStrings (l : List String) : List String :=
  l.foldr insertSorted []

/-- Pair each element with its position, starting at `i`. -/
def withIndexFrom : Nat → List α → List (Nat × α)
  | _, [] => []
  | i, a :: as => (i, a) :: withIndexFrom (i + 1) as

/-- Default used for out-of-range player-index lookups (Go would panic there;
the claims only concern in-range states). -/
def defaultPlayer : Player :=
  { id := -1, name := "", present := false, session := none }

/-- Default used for `headD` on a spectator list already known non-empty. -/
def defaultSpectator : Spectator :=
  { id := -1, name := "", session := none, notes := [] }

/-- The `GameRow` built at the top of `WriteDatabase`. -/
def mkGameRow (variants : String → VariantInfo) (g : Game) (t : Table) : GameRow :=
  { name := t.name
    numPlayers := g.players.length
    variant := (variants g.options.variant).id
    timed := g.options.timed
    timeBase := g.options.timeBase
    timePerTurn := g.options.timePerTurn
    speedrun := g.options.speedrun
    cardCycle := g.options.cardCycle
    deckPlays := g.options.deckPlays
    emptyClues := g.options.emptyClues
    characterAssignments := g.options.characterAssignments
    seed := g.seed
    score := g.score
    numTurns := g.turn
    endCondition := g.endCondition
    datetimeStarted := g.datetimeStarted
    datetimeFinished := g.datetimeFinished }

/-- Resolve the character id of a participant (0 when character assignments
are off, -1 for "n/a", otherwise a lookup that is fatal when it misses). -/
def characterIDFor (characters : String → Option CharacterInfo)
    (assignments : Bool) (gp : GamePlayer) : Except Unit Int :=
  if assignments then
    if gp.character = "n/a" then .ok (-1)
    else
      match characters gp.character with
      | none => .error ()
      | some c => .ok c.id
  else .ok 0

/-- The participant-insert loop of `WriteDatabase`: one insert per player (in
order), stopping with an error on a failed character lookup or insert. -/
def insertParticipantsFrom (env : DBEnv) (characters : String → Option CharacterInfo)
    (assignments : Bool) (gid : Int) (t : Table) :
    Nat → List GamePlayer → Except Unit Unit × List Event
  | _, [] => (.ok (), [])
  | i, gp :: rest =>
    let p := t.players.getD gp.index defaultPlayer
    match characterIDFor characters assignments gp with
    | .error _ => (.error (), [])
    | .ok cid =>
      let ev := Event.dbInsertParticipant gid p.id gp.index cid gp.characterMetadata
      if env.participantOk i then
        let r := insertParticipantsFrom env characters assignments gid t (i + 1) rest
        (r.1, ev :: r.2)
      else (.error (), [ev])

/-- Note inserts for one participant: empty notes are skipped, failures are
non-fatal (log-and-continue). -/
def noteEventsFor (gid pid : Int) (notes : List String) : List Event :=
  (withIndexFrom 0 notes).filterMap fun jn =>
    if jn.2 = "" then none else some (.dbInsertNote pid gid jn.1 jn.2)

/-- The note-insert loop of `WriteDatabase` across all participants. -/
def noteEvents (gid : Int) (g : Game) (t : Table) : List Event :=
  g.players.flatMap fun gp =>
    noteEventsFor gid (t.players.getD gp.index defaultPlayer).id gp.notes

/-- The action-insert loop of `WriteDatabase`: each live action is inserted at
the index equal to its position in `g.Actions2`; a failed insert is fatal. -/
def insertActionsFrom (ok : Nat → Bool) (gid : Int) :
    Nat → List GameAction → Except Unit Unit × List Event
  | _, [] => (.ok (), [])
  | i, a :: rest =>
    let ev := Event.dbInsertAction gid i a
    if ok i then
      let r := insertActionsFrom ok gid (i + 1) rest
      (r.1, ev :: r.2)
    else (.error (), [ev])

/-- The "game over" pseudo-action, built exactly for the Timeout, Terminated
and IdleTimeout end conditions. -/
def gameOverAction (ec : EndCondition) (endPlayer : Int) : Option GameAction :=
  if ec = .Timeout then some ⟨.gameOver, endPlayer, EndCondition.Timeout.code⟩
  else if ec = .Terminated then some ⟨.gameOver, endPlayer, EndCondition.Terminated.code⟩
  else if ec = .IdleTimeout then some ⟨.gameOver, 0, EndCondition.IdleTimeout.code⟩
  else none

/-- Insert the game-over pseudo-action (if any) at the next free index after
all real actions; it is never appended to the in-memory action array. -/
def gameOverInsert (env : DBEnv) (gid : Int) (ec : EndCondition) (endPlayer : Int)
    (nextIdx : Nat) : Except Unit Unit × List Event :=
  match gameOverAction ec endPlayer with
  | none => (.ok (), [])
  | some a =>
    ((if env.gameOverOk then .ok () else .error ()), [.dbInsertAction gid nextIdx a])

/-- Chat-log inserts (non-fatal). -/
def chatEvents (t : Table) : List Event :=
  t.chat.map fun c => .dbInsertChat c.userID c.msg ("table" ++ toString t.id)

/-- Tag inserts (non-fatal). -/
def tagEvents (gid : Int) (tags : List String) : List Event :=
  tags.map fun tag => .dbInsertTag gid tag

/-- Integer modifier of a game: 0 none, +1 deck-plays, +2 empty-clues. -/
def gameModifier (o : Options) : Int :=
  (if o.deckPlays then 1 else 0) + (if o.emptyClues then 2 else 0)

/-- Per-user stats row after the best-score replacement of `WriteDatabase`: in
its player-count bucket a strictly higher score, or an equal score with a
strictly lower modifier, replaces the stored best. -/
def userStatsNewRow (o : Options) (numPlayers : Nat) (score : Int)
    (stats : UserStatsRow) : UserStatsRow :=
  let modifier := gameModifier o
  let idx := numPlayers - 2
  let bs := stats.bestScores.getD idx ⟨0, 0⟩
  if score > bs.score ∨ (score = bs.score ∧ modifier < bs.modifier) then
    { stats with bestScores := stats.bestScores.set idx ⟨score, modifier⟩ }
  else stats

/-- The per-user stats loop of `WriteDatabase`: a failed read skips the user,
updates are always attempted otherwise (update failures are non-fatal). -/
def userStatsEvents (env : DBEnv) (vid : Int) (o : Options) (numPlayers : Nat)
    (score : Int) (players : List Player) : List Event :=
  players.flatMap fun p =>
    Event.dbGetUserStats p.id ::
      match env.userStatsGet p.id with
      | .error _ => []
      | .ok stats => [.dbUpdateUserStats p.id vid (userStatsNewRow o numPlayers score stats)]

/-- Per-variant stats row after `WriteDatabase`: the best-score slot is raised
to a strictly higher score only when the game used no modifiers at all. -/
def variantStatsNewRow (o : Options) (numPlayers : Nat) (score : Int)
    (stats : VariantStatsRow) : VariantStatsRow :=
  if !o.deckPlays && !o.emptyClues then
    let idx := numPlayers - 2
    let bs := stats.bestScores.getD idx ⟨0, 0⟩
    if score > bs.score then
      { stats with bestScores := stats.bestScores.set idx { bs with score := score } }
    else stats
  else stats

/-- Tail of `WriteDatabase`: chat, tags, per-user stats, then the variant-stats
read/update (the read and the update are both fatal on failure). -/
def writeDatabaseTail (env : DBEnv) (variants : String → VariantInfo) (g : Game)
    (t : Table) : Except Unit Game × List Event :=
  let vid := (variants g.options.variant).id
  let ev := chatEvents t ++ tagEvents g.id g.tags
    ++ userStatsEvents env vid g.options g.players.length g.score t.players
    ++ [.dbGetVariantStats vid]
  match env.variantStatsGet with
  | .error _ => (.error (), ev)
  | .ok vstats =>
    let row := variantStatsNewRow g.options g.players.length g.score vstats
    let ev := ev ++ [.dbUpdateVariantStats vid (variants g.options.variant).maxScore row]
    ((if env.variantStatsUpdateOk then .ok g else .error ()), ev)

/-- Model of `Game.WriteDatabase`: returns the game with its persisted id on success,
together with the trace of persistence calls that were attempted. -/
def writeDatabase (env : DBEnv) (variants : String → VariantInfo)
    (characters : String → Option CharacterInfo) (g : Game) (t : Table) :
    Except Unit Game × List Event :=
  let row := mkGameRow variants g t
  match env.insertGame row with
  | .error _ => (.error (), [.dbInsertGame row])
  | .ok gid =>
    let g1 := { g with id := gid }
    let pr := insertParticipantsFrom env characters t.options.characterAssignments gid t 0 g1.players
    match pr.1 with
    | .error _ => (.error (), .dbInsertGame row :: pr.2)
    | .ok _ =>
      let nev := noteEvents gid g1 t
      let ar := insertActionsFrom env.actionOk gid 0 g1.actions2
      match ar.1 with
      | .error _ => (.error (), .dbInsertGame row :: (pr.2 ++ nev ++ ar.2))
      | .ok _ =>
        let gr := gameOverInsert env gid g1.endCondition g1.endPlayer g1.actions2.length
        match gr.1 with
        | .error _ => (.error (), .dbInsertGame row :: (pr.2 ++ nev ++ ar.2 ++ gr.2))
        | .ok _ =>
          let tr := writeDatabaseTail env variants g1 t
          (tr.1, .dbInsertGame row :: (pr.2 ++ nev ++ ar.2 ++ gr.2 ++ tr.2))

/-- The deck-order action appended at the very start of `Game.End`. -/
def deckOrderAction (g : Game) : ClientAction :=
  .deckOrder (g.deck.map fun c => ⟨c.suit, c.rank⟩)

/-- The per-player end-of-game timing text: timed games report the remaining
clock as stored, untimed games report `p.Time * -1` (times are stored negative
in untimed games).  `d2s` stands for `durationToString` (outside the excerpt). -/
def timingText (d2s : Int → String) (timed : Bool) (p : GamePlayer) : String :=
  p.name ++ " " ++
    (if timed then ("had " ++ d2s p.time ++ " left")
     else ("took: " ++ d2s (p.time * -1)))

/-- The per-player timing chat actions appended by `Game.End` (one per player,
in seating order). -/
def timingActions (d2s : Int → String) (timed : Bool) (ps : List GamePlayer) :
    List ClientAction :=
  ps.map fun p => .text (timingText d2s timed p)

/-- The total-game-duration text. -/
def totalTimeText (d2s : Int → String) (finished started : Int) : String :=
  "The total game duration was: " ++ d2s (finished - started)

/-- The reveal messages sent to each present player about their own hand. -/
def revealEvents (t : Table) (gps : List GamePlayer) : List Event :=
  gps.flatMap fun gp =>
    let p := t.players.getD gp.index defaultPlayer
    if p.present then
      gp.hand.flatMap fun c => emitTo p.session fun sid => .emitReveal sid c.suit c.rank c.order
    else []

/-- The status resets to "lobby" for every player with a session. -/
def statusResetEvents (ps : List Player) : List Event :=
  ps.flatMap fun p =>
    match p.session with
    | none => []
    | some s => [.setStatus s.sid .lobby, .notifyAllUser s.sid]

/-- The game state right after the deck-order append of `Game.End`: finish
timestamp set, score forced to zero for any end condition above Normal. -/
def gameAtDeckOrder (now : Int) (g : Game) : Game :=
  { g with
    datetimeFinished := now
    score := if EndCondition.Normal.code < g.endCondition.code then 0 else g.score
    actions := g.actions ++ [deckOrderAction g] }

/-- The game state after the timing chat, total-duration chat and the
artificial turn advance of `Game.End`. -/
def gameAfterPreamble (d2s : Int → String) (now : Int) (g : Game) : Game :=
  { g with
    actions := g.actions ++ timingActions d2s g.options.timed g.players
      ++ [.text (totalTimeText d2s now g.datetimeStarted)]
    turn := g.turn + 1 }

/-- All broadcasts of `Game.End` from the timing chat up to the status resets
(everything sent before `WriteDatabase` is called, past the deck-order one). -/
def endPreambleEvents (gps : List GamePlayer) (t : Table) : List Event :=
  gps.map (fun _ => Event.notifyGameAction)
    ++ [.notifyGameAction, .notifyTurn, .notifyGameOver]
    ++ revealEvents t gps
    ++ [.notifyAllTableGone]
    ++ statusResetEvents t.players

/-- A freshly promoted spectator: identity and connection preserved, one note
slot per deck card plus one per suit. -/
def mkSpectator (notesLen : Nat) (p : Player) : Spectator :=
  { id := p.id, name := p.name, session := p.session
    notes := List.replicate notesLen ("") }

/-- One step of the player-to-spectator promotion loop of
`Table.ConvertToSharedReplay`: absent players are skipped (flagging leader
reassignment when the absent owner is fully disconnected), every player is
skipped under an idle-timeout end, otherwise the player is promoted. -/
def promoteStep (notesLen : Nat) (owner : Int) (ec : EndCondition) :
    Bool × List Spectator → Player → Bool × List Spectator :=
  fun acc p =>
    if !p.present then
      (acc.1 || (p.id == owner && sessionGone p.session), acc.2)
    else if ec == .IdleTimeout then acc
    else (acc.1, acc.2 ++ [mkSpectator notesLen p])

/-- Note-slot count of a promoted spectator for this game. -/
def notesLenOf (variants : String → VariantInfo) (g : Game) (t : Table) : Nat :=
  g.deck.length + (variants t.options.variant).numSuits

/-- The promotion loop of `Table.ConvertToSharedReplay`: the reassignment flag
together with the resulting spectator list. -/
def promotionOf (variants : String → VariantInfo) (g : Game) (t : Table) :
    Bool × List Spectator :=
  t.players.foldl (promoteStep (notesLenOf variants g t) t.owner g.endCondition)
    (false, t.spectators)

/-- The leader election of `Table.ConvertToSharedReplay`, transcribed as
written: scan for the first present player, then the `!= -1` guard decides
whether the first spectator takes over. -/
def electOwner (players : List Player) (specs : List Spectator) : Int :=
  let scanned :=
    match players.find? (fun p => p.present) with
    | some p => p.id
    | none => -1
  if scanned ≠ -1 then (specs.headD defaultSpectator).id else scanned

/-- The per-spectator pushes at the end of `Table.ConvertToSharedReplay`.  The
status set is guarded by a nil check in the source; the replay-leader,
note-list and databaseID pushes are issued unguarded and rely on the
session methods' own nil handling (modelled from the spec, section 6: delivery
to an offline user is skipped). -/
def spectatorLoopEvents (specs : List Spectator) (tid gid : Int) : List Event :=
  specs.flatMap fun sp =>
    (match sp.session with
     | none => []
     | some s => [.setStatus s.sid .sharedReplay, .notifyAllUser s.sid])
    ++ emitTo sp.session (fun sid => .notifyReplayLeader sid)
    ++ emitTo sp.session (fun sid => .notifyNoteList sid)
    ++ emitTo sp.session (fun sid => .emitDatabaseID sid tid gid)

/-- Result of the conversion: the updated game, the table (`none` when it was
deleted from the global registry), the registry membership map, and the trace. -/
structure ConvResult where
  game : Game
  table : Option Table
  tables : Int → Bool
  events : List Event

/-- Model of `Table.ConvertToSharedReplay`.  The argument `tables` is the global table registry,
modelled as a membership map (`delete(tables, t.ID)` clears the table's id). -/
def convertToSharedReplay (variants : String → VariantInfo) (tables : Int → Bool)
    (g : Game) (t : Table) : ConvResult :=
  let t1 := { t with replay := true, name := "Shared replay for game #" ++ toString g.id,
                     progress := 100 }
  let g1 := { g with endTurn := g.turn, turn := g.turn - 1 }
  let pr := promotionOf variants g1 t1
  let t2 := { t1 with spectators := pr.2 }
  if t2.spectators.isEmpty then
    ⟨g1, none, fun i => if i = t2.id then false else tables i, [.deleteTable t2.id]⟩
  else
    let t3 := if pr.1 then { t2 with owner := electOwner t2.players t2.spectators } else t2
    let t4 := { t3 with players := t3.players.map fun p => { p with present := true } }
    ⟨g1, some t4, tables,
      [.notifyConnected]
        ++ spectatorLoopEvents pr.2 t2.id g1.id
        ++ [.notifyAllTable, .notifySpectators]⟩

/-- The history snapshot broadcast after a successful write. -/
def mkGameHistory (g : Game) (t : Table) (numSimilar : Nat) : GameHistory :=
  { id := g.id
    numPlayers := g.players.length
    variant := g.options.variant
    timed := g.options.timed
    timeBase := g.options.timeBase
    timePerTurn := g.options.timePerTurn
    speedrun := g.options.speedrun
    cardCycle := g.options.cardCycle
    deckPlays := g.options.deckPlays
    emptyClues := g.options.emptyClues
    characterAssignments := g.options.characterAssignments
    seed := g.seed
    score := g.score
    numTurns := g.turn
    endCondition := g.endCondition
    datetimeStarted := g.datetimeStarted
    datetimeFinished := g.datetimeFinished
    numSimilar := numSimilar
    playerNames := String.intercalate (", ") (sortStrings (t.players.map Player.name))
    incrementNumGames := true }

/-- Result of the end sequence. -/
structure EndResult where
  game : Game
  table : Option Table
  tables : Int → Bool
  events : List Event

/-- Model of `Game.End`: the full end sequence, from the deck-order append through the
persistence write, the history broadcast and the replay conversion. -/
def gameEnd (env : DBEnv) (d2s : Int → String) (variants : String → VariantInfo)
    (characters : String → Option CharacterInfo) (tables : Int → Bool)
    (now : Int) (g : Game) (t : Table) : EndResult :=
  let g1 := gameAtDeckOrder now g
  if g1.options.replay then ⟨g1, some t, tables, [.notifyGameAction]⟩
  else
    let g2 := gameAfterPreamble d2s now g1
    let pre := Event.notifyGameAction :: endPreambleEvents g1.players t
    let wr := writeDatabase env variants characters g2 t
    match wr.1 with
    | .error _ => ⟨g2, some t, tables, pre ++ wr.2⟩
    | .ok g3 =>
      match env.numSimilar with
      | .error _ => ⟨g3, some t, tables, pre ++ wr.2 ++ [.dbGetNumSimilar g3.seed]⟩
      | .ok ns =>
        let hist := mkGameHistory g3 t ns
        let hev := t.players.flatMap fun p =>
          emitTo p.session fun sid => .emitGameHistory sid hist
        let cv := convertToSharedReplay variants tables g3 t
        ⟨cv.game, cv.table, cv.tables,
          pre ++ wr.2 ++ [.dbGetNumSimilar g3.seed] ++ hev ++ cv.events⟩

lemma getD_set_self (l : List α) (i : Nat) (a d : α) (h : i < l.length) :
    (l.set i a).getD i d = a := by
  induction l generalizing i with
  | nil => simp at h
  | cons x xs ih =>
    cases i with
    | zero => simp [List.set, List.getD]
    | succ j =>
      simp only [List.set, List.getD_cons_succ]
      exact ih j (by simpa using h)

lemma getD_set_ne (l : List α) (i j : Nat) (a d : α) (h : j ≠ i) :
    (l.set i a).getD j d = l.getD j d := by
  induction l generalizing i j with
  | nil => simp [List.set]
  | cons x xs ih =>
    cases i with
    | zero =>
      cases j with
      | zero => exact absurd rfl h
      | succ k => simp [List.set]
    | succ i' =>
      cases j with
      | zero => simp [List.set]
      | succ k =>
        simp only [List.set, List.getD_cons_succ]
        exact ih i' k (fun hk => h (by simp [hk]))

/-- C2: for every player, the per-user best-score replacement of
`WriteDatabase` is monotonic in the stored stats: a strictly higher score
always replaces the stored best for the game's player-count bucket, an equal
score replaces exactly when the game's modifier is strictly lower than the
stored one, a lower score never replaces, and no other bucket is touched;
moreover the row so computed is exactly what the stats update call carries. -/
theorem userStats_best_score_monotonic (env : DBEnv) (o : Options)
    (numPlayers : Nat) (score : Int) (stats : UserStatsRow) (vid : Int)
    (p : Player) (players : List Player)
    (hidx : numPlayers - 2 < stats.bestScores.length)
    (hp : p ∈ players) (hget : env.userStatsGet p.id = .ok stats) :
    ((stats.bestScores.getD (numPlayers - 2) ⟨0, 0⟩).score < score →
      (userStatsNewRow o numPlayers score stats).bestScores.getD (numPlayers - 2) ⟨0, 0⟩
        = ⟨score, gameModifier o⟩) ∧
    (score = (stats.bestScores.getD (numPlayers - 2) ⟨0, 0⟩).score →
      (gameModifier o < (stats.bestScores.getD (numPlayers - 2) ⟨0, 0⟩).modifier →
        (userStatsNewRow o numPlayers score stats).bestScores.getD (numPlayers - 2) ⟨0, 0⟩
          = ⟨score, gameModifier o⟩) ∧
      (¬ gameModifier o < (stats.bestScores.getD (numPlayers - 2) ⟨0, 0⟩).modifier →
        userStatsNewRow o numPlayers score stats = stats)) ∧
    (score < (stats.bestScores.getD (numPlayers - 2) ⟨0, 0⟩).score →
      userStatsNewRow o numPlayers score stats = stats) ∧
    (∀ j, j ≠ numPlayers - 2 →
      (userStatsNewRow o numPlayers score stats).bestScores.getD j ⟨0, 0⟩
        = stats.bestScores.getD j ⟨0, 0⟩) ∧
    Event.dbUpdateUserStats p.id vid (userStatsNewRow o numPlayers score stats)
      ∈ userStatsEvents env vid o numPlayers score players := by
  refine ⟨?_, ?_, ?_, ?_, ?_⟩
  · intro hlt
    simp only [userStatsNewRow]
    rw [if_pos (Or.inl hlt)]
    simpa using getD_set_self _ _ _ _ hidx
  · intro heq
    constructor
    · intro hmod
      simp only [userStatsNewRow]
      rw [if_pos (Or.inr ⟨heq, hmod⟩)]
      simpa using getD_set_self _ _ _ _ hidx
    · intro hmod
      simp only [userStatsNewRow]
      rw [if_neg]
      rintro (h | ⟨-, h⟩)
      · exact absurd heq (by omega)
      · exact hmod h
  · intro hlt
    simp only [userStatsNewRow]
    rw [if_neg]
    rintro (h | ⟨h, -⟩) <;> omega
  · intro j hj
    simp only [userStatsNewRow]
    split
    · simpa using getD_set_ne _ _ _ _ _ hj
    · rfl
  · simp only [userStatsEvents, List.mem_flatMap]
    exact ⟨p, hp, by simp [hget]⟩

/-- A live example session. -/
def exSession : Session := ⟨5, false⟩

/-- Example options: deck-plays on, so the modifier is 1. -/
def exOptsDeck : Options :=
  { variant := "No Variant", timed := false, timeBase := 0, timePerTurn := 0,
    speedrun := false, cardCycle := false, deckPlays := true, emptyClues := false,
    characterAssignments := false, replay := false }

/-- An example connected player. -/
def exPlayerW : Player := ⟨1, "alice", true, some exSession⟩

/-- An example persistence oracle where every call succeeds. -/
def exEnvW : DBEnv :=
  { insertGame := fun _ => .ok 7
    participantOk := fun _ => true
    actionOk := fun _ => true
    gameOverOk := true
    userStatsGet := fun _ => .ok ⟨[⟨10, 3⟩]⟩
    variantStatsGet := .ok ⟨[⟨10, 0⟩]⟩
    variantStatsUpdateOk := true
    numSimilar := .ok 1 }

/-- Witness for C2: a 2-player game scoring 10 against a stored best of 10
with modifier 3; the game's modifier 1 is strictly lower, so the slot is
replaced by score 10 with modifier 1. -/
theorem userStats_best_score_monotonic_witness :
    ((2 : Nat) - 2 < ([⟨10, 3⟩] : List BestScore).length ∧
      exPlayerW ∈ [exPlayerW] ∧
      exEnvW.userStatsGet exPlayerW.id = .ok ⟨[⟨10, 3⟩]⟩) ∧
    (userStatsNewRow exOptsDeck 2 10 ⟨[⟨10, 3⟩]⟩).bestScores.getD (2 - 2) ⟨0, 0⟩
      = ⟨10, gameModifier exOptsDeck⟩ :=
  ⟨⟨by decide, by decide, rfl⟩,
    ((userStats_best_score_monotonic exEnvW exOptsDeck 2 10 ⟨[⟨10, 3⟩]⟩ 9 exPlayerW
      [exPlayerW] (by decide) (by decide) rfl).2.1 (by decide)).1 (by decide)⟩

/-- C4: at game end, the global variant-stats best-score slot for the game's
player-count bucket is raised (to the new score, when strictly higher) only
when the game used neither deck-plays nor empty-clues, while the variant-stats
row update (which carries the games-played increment) is always issued. -/
theorem variantStats_update (env : DBEnv) (variants : String → VariantInfo)
    (characters : String → Option CharacterInfo) (g : Game) (t : Table)
    (gid : Int) (vstats : VariantStatsRow)
    (hins : env.insertGame (mkGameRow variants g t) = .ok gid)
    (hp : (insertParticipantsFrom env characters t.options.characterAssignments
      gid t 0 g.players).1 = .ok ())
    (ha : (insertActionsFrom env.actionOk gid 0 g.actions2).1 = .ok ())
    (hgo : (gameOverInsert env gid g.endCondition g.endPlayer g.actions2.length).1 = .ok ())
    (hv : env.variantStatsGet = .ok vstats)
    (hidx : g.players.length - 2 < vstats.bestScores.length) :
    Event.dbUpdateVariantStats (variants g.options.variant).id
        (variants g.options.variant).maxScore
        (variantStatsNewRow g.options g.players.length g.score vstats)
      ∈ (writeDatabase env variants characters g t).2 ∧
    ((g.options.deckPlays = true ∨ g.options.emptyClues = true) →
      variantStatsNewRow g.options g.players.length g.score vstats = vstats) ∧
    (g.options.deckPlays = false → g.options.emptyClues = false →
      ((vstats.bestScores.getD (g.players.length - 2) ⟨0, 0⟩).score < g.score →
        (variantStatsNewRow g.options g.players.length g.score vstats).bestScores.getD
            (g.players.length - 2) ⟨0, 0⟩
          = { vstats.bestScores.getD (g.players.length - 2) ⟨0, 0⟩ with score := g.score }) ∧
      (g.score ≤ (vstats.bestScores.getD (g.players.length - 2) ⟨0, 0⟩).score →
        variantStatsNewRow g.options g.players.length g.score vstats = vstats)) := by
  refine ⟨?_, ?_, ?_⟩
  · simp only [writeDatabase, hins, hp, ha, hgo, writeDatabaseTail, hv]
    simp [List.mem_append]
  · intro h
    simp only [variantStatsNewRow]
    rcases h with h | h <;> simp [h]
  · intro hdp hec
    have h1 : (!g.options.deckPlays && !g.options.emptyClues) = true := by
      simp [hdp, hec]
    constructor
    · intro hlt
      simp only [variantStatsNewRow, h1]
      rw [if_pos trivial, if_pos hlt]
      simpa using getD_set_self _ _ _ _ hidx
    · intro hle
      simp only [variantStatsNewRow, h1]
      rw [if_pos trivial, if_neg (by omega)]

/-- Is this event the main game-row insert? -/
def Event.isGameRowInsert : Event → Bool
  | .dbInsertGame _ => true
  | _ => false

/-- Is this event an action-row insert? -/
def Event.isActionInsert : Event → Bool
  | .dbInsertAction _ _ _ => true
  | _ => false

/-- Is this event the gameHistory emit? -/
def Event.isHistoryEmit : Event → Bool
  | .emitGameHistory _ _ => true
  | _ => false

/-- Is this event one of the broadcasts/pushes only the replay conversion
issues (membership updates, leader/note/databaseID pushes, registry delete)? -/
def Event.isConversionBroadcast : Event → Bool
  | .notifyConnected => true
  | .notifyReplayLeader _ => true
  | .notifyNoteList _ => true
  | .emitDatabaseID _ _ _ => true
  | .notifyAllTable => true
  | .notifySpectators => true
  | .deleteTable _ => true
  | _ => false

/-- Is this event a persistence-gateway call? -/
def Event.isDBCall : Event → Bool
  | .dbInsertGame _ => true
  | .dbInsertParticipant _ _ _ _ _ => true
  | .dbInsertNote _ _ _ _ => true
  | .dbInsertAction _ _ _ => true
  | .dbInsertChat _ _ _ => true
  | .dbInsertTag _ _ => true
  | .dbGetUserStats _ => true
  | .dbUpdateUserStats _ _ _ => true
  | .dbGetVariantStats _ => true
  | .dbUpdateVariantStats _ _ _ => true
  | .dbGetNumSimilar _ => true
  | _ => false

/-- The session id a direct per-connection message of the end/conversion path
is addressed to (gameHistory, replay-leader, note-list and databaseID pushes). -/
def Event.directTarget : Event → Option Nat
  | .emitGameHistory sid _ => some sid
  | .notifyReplayLeader sid => some sid
  | .notifyNoteList sid => some sid
  | .emitDatabaseID sid _ _ => some sid
  | _ => none

lemma isDBCall_flags (e : Event) (h : e.isDBCall = true) :
    e.isHistoryEmit = false ∧ e.isConversionBroadcast = false ∧
      e.directTarget = none := by
  cases e <;> simp_all [Event.isDBCall, Event.isHistoryEmit,
    Event.isConversionBroadcast, Event.directTarget]

lemma mem_emitTo {e : Event} {s : Option Session} {mk : Nat → Event}
    (h : e ∈ emitTo s mk) : ∃ ses, s = some ses ∧ e = mk ses.sid := by
  cases s with
  | none => simp [emitTo] at h
  | some ses =>
    simp only [emitTo, List.mem_singleton] at h
    exact ⟨ses, rfl, h⟩

lemma mem_statusResetEvents {e : Event} {ps : List Player}
    (h : e ∈ statusResetEvents ps) :
    ∃ sid, e = .setStatus sid .lobby ∨ e = .notifyAllUser sid := by
  simp only [statusResetEvents, List.mem_flatMap] at h
  obtain ⟨p, -, hm⟩ := h
  cases hs : p.session with
  | none => rw [hs] at hm; simp at hm
  | some s =>
    rw [hs] at hm
    simp only [List.mem_cons, List.mem_singleton] at hm
    rcases hm with h | h | h
    · exact ⟨s.sid, Or.inl h⟩
    · exact ⟨s.sid, Or.inr h⟩
    · simp at h

lemma mem_revealEvents {e : Event} {t : Table} {gps : List GamePlayer}
    (h : e ∈ revealEvents t gps) :
    ∃ sid su ra od, e = .emitReveal sid su ra od := by
  simp only [revealEvents, List.mem_flatMap] at h
  obtain ⟨gp, -, hm⟩ := h
  split at hm
  · simp only [List.mem_flatMap] at hm
    obtain ⟨c, -, hm⟩ := hm
    obtain ⟨ses, -, he⟩ := mem_emitTo hm
    exact ⟨ses.sid, c.suit, c.rank, c.order, he⟩
  · simp at hm

lemma endPreamble_flags {e : Event} {gps : List GamePlayer} {t : Table}
    (h : e ∈ endPreambleEvents gps t) :
    e.isDBCall = false ∧ e.isHistoryEmit = false ∧
      e.isConversionBroadcast = false ∧ e.directTarget = none := by
  simp only [endPreambleEvents, List.mem_append, List.mem_map,
    List.mem_cons, List.mem_singleton, List.not_mem_nil, or_false] at h
  rcases h with (((⟨-, -, rfl⟩ | (rfl | rfl | rfl)) | hr) | rfl) | hs
  · exact ⟨rfl, rfl, rfl, rfl⟩
  · exact ⟨rfl, rfl, rfl, rfl⟩
  · exact ⟨rfl, rfl, rfl, rfl⟩
  · exact ⟨rfl, rfl, rfl, rfl⟩
  · obtain ⟨sid, su, ra, od, rfl⟩ := mem_revealEvents hr
    exact ⟨rfl, rfl, rfl, rfl⟩
  · exact ⟨rfl, rfl, rfl, rfl⟩
  · rcases mem_statusResetEvents hs with ⟨sid, rfl | rfl⟩ <;>
      exact ⟨rfl, rfl, rfl, rfl⟩

lemma insertParticipantsFrom_flags (env : DBEnv)
    (characters : String → Option CharacterInfo) (asg : Bool) (gid : Int)
    (t : Table) :
    ∀ i ps, ∀ e ∈ (insertParticipantsFrom env characters asg gid t i ps).2,
      e.isDBCall = true ∧ e.isGameRowInsert = false ∧ e.isActionInsert = false := by
  intro i ps
  induction ps generalizing i with
  | nil => intro e he; simp [insertParticipantsFrom] at he
  | cons gp rest ih =>
    intro e he
    simp only [insertParticipantsFrom] at he
    split at he
    · simp at he
    · split at he
      · rcases List.mem_cons.mp he with rfl | hm
        · exact ⟨rfl, rfl, rfl⟩
        · exact ih (i + 1) e hm
      · rcases List.mem_singleton.mp he with rfl
        exact ⟨rfl, rfl, rfl⟩

lemma noteEvents_flags (gid : Int) (g : Game) (t : Table) :
    ∀ e ∈ noteEvents gid g t,
      e.isDBCall = true ∧ e.isGameRowInsert = false ∧ e.isActionInsert = false := by
  intro e he
  simp only [noteEvents, noteEventsFor, List.mem_flatMap, List.mem_filterMap] at he
  obtain ⟨gp, -, jn, -, hj⟩ := he
  split at hj
  · simp at hj
  · rcases Option.some.inj hj with rfl
    exact ⟨rfl, rfl, rfl⟩

lemma insertActionsFrom_flags (ok : Nat → Bool) (gid : Int) :
    ∀ i acts, ∀ e ∈ (insertActionsFrom ok gid i acts).2,
      e.isDBCall = true ∧ e.isGameRowInsert = false := by
  intro i acts
  induction acts generalizing i with
  | nil => intro e he; simp [insertActionsFrom] at he
  | cons a rest ih =>
    intro e he
    simp only [insertActionsFrom] at he
    split at he
    · rcases List.mem_cons.mp he with rfl | hm
      · exact ⟨rfl, rfl⟩
      · exact ih (i + 1) e hm
    · rcases List.mem_singleton.mp he with rfl
      exact ⟨rfl, rfl⟩

lemma gameOverInsert_flags (env : DBEnv) (gid : Int) (ec : EndCondition)
    (ep : Int) (ni : Nat) :
    ∀ e ∈ (gameOverInsert env gid ec ep ni).2,
      e.isDBCall = true ∧ e.isGameRowInsert = false := by
  intro e he
  simp only [gameOverInsert] at he
  split at he
  · simp at he
  · rcases List.mem_singleton.mp he with rfl
    exact ⟨rfl, rfl⟩

lemma chatEvents_flags (t : Table) :
    ∀ e ∈ chatEvents t,
      e.isDBCall = true ∧ e.isGameRowInsert = false ∧ e.isActionInsert = false := by
  intro e he
  simp only [chatEvents, List.mem_map] at he
  obtain ⟨c, -, rfl⟩ := he
  exact ⟨rfl, rfl, rfl⟩

lemma tagEvents_flags (gid : Int) (tags : List String) :
    ∀ e ∈ tagEvents gid tags,
      e.isDBCall = true ∧ e.isGameRowInsert = false ∧ e.isActionInsert = false := by
  intro e he
  simp only [tagEvents, List.mem_map] at he
  obtain ⟨tg, -, rfl⟩ := he
  exact ⟨rfl, rfl, rfl⟩

lemma userStatsEvents_flags (env : DBEnv) (vid : Int) (o : Options)
    (numPlayers : Nat) (score : Int) (players : List Player) :
    ∀ e ∈ userStatsEvents env vid o numPlayers score players,
      e.isDBCall = true ∧ e.isGameRowInsert = false ∧ e.isActionInsert = false := by
  intro e he
  simp only [userStatsEvents, List.mem_flatMap] at he
  obtain ⟨p, -, hm⟩ := he
  rcases hs : env.userStatsGet p.id with u | stats <;> rw [hs] at hm
  · rcases List.mem_singleton.mp hm with rfl
    exact ⟨rfl, rfl, rfl⟩
  · rcases List.mem_cons.mp hm with rfl | hm2
    · exact ⟨rfl, rfl, rfl⟩
    · rcases List.mem_singleton.mp hm2 with rfl
      exact ⟨rfl, rfl, rfl⟩

lemma writeDatabaseTail_flags (env : DBEnv) (variants : String → VariantInfo)
    (g : Game) (t : Table) :
    ∀ e ∈ (writeDatabaseTail env variants g t).2,
      e.isDBCall = true ∧ e.isGameRowInsert = false ∧ e.isActionInsert = false := by
  intro e he
  simp only [writeDatabaseTail] at he
  split at he
  · simp only [List.mem_append, List.mem_singleton] at he
    rcases he with ((hc | ht) | hu) | rfl
    · exact chatEvents_flags t e hc
    · exact tagEvents_flags g.id g.tags e ht
    · exact userStatsEvents_flags env _ _ _ _ _ e hu
    · exact ⟨rfl, rfl, rfl⟩
  · simp only [List.mem_append, List.mem_singleton] at he
    rcases he with (((hc | ht) | hu) | rfl) | rfl
    · exact chatEvents_flags t e hc
    · exact tagEvents_flags g.id g.tags e ht
    · exact userStatsEvents_flags env _ _ _ _ _ e hu
    · exact ⟨rfl, rfl, rfl⟩
    · exact ⟨rfl, rfl, rfl⟩

lemma writeDatabase_class (env : DBEnv) (variants : String → VariantInfo)
    (characters : String → Option CharacterInfo) (g : Game) (t : Table) :
    ∀ e ∈ (writeDatabase env variants characters g t).2,
      e.isDBCall = true ∧
        (∀ row, e = .dbInsertGame row → row = mkGameRow variants g t) := by
  intro e he
  have head : e = Event.dbInsertGame (mkGameRow variants g t) →
      e.isDBCall = true ∧
        (∀ row, e = .dbInsertGame row → row = mkGameRow variants g t) := by
    rintro rfl
    exact ⟨rfl, fun row h => by cases h; rfl⟩
  have seg : e.isDBCall = true → e.isGameRowInsert = false →
      e.isDBCall = true ∧
        (∀ row, e = .dbInsertGame row → row = mkGameRow variants g t) := by
    intro h1 h2
    refine ⟨h1, fun row h => ?_⟩
    rw [h] at h2
    simp [Event.isGameRowInsert] at h2
  simp only [writeDatabase] at he
  split at he
  · exact head (List.mem_singleton.mp he)
  · split at he
    · rcases List.mem_cons.mp he with h | he2
      · exact head h
      · obtain ⟨h1, h2, -⟩ := insertParticipantsFrom_flags env characters
          t.options.characterAssignments _ t 0 _ e he2
        exact seg h1 h2
    · split at he
      · rcases List.mem_cons.mp he with h | he2
        · exact head h
        · simp only [List.mem_append] at he2
          rcases he2 with (hp | hn) | ha
          · obtain ⟨h1, h2, -⟩ := insertParticipantsFrom_flags env characters
              t.options.characterAssignments _ t 0 _ e hp
            exact seg h1 h2
          · obtain ⟨h1, h2, -⟩ := noteEvents_flags _ _ t e hn
            exact seg h1 h2
          · obtain ⟨h1, h2⟩ := insertActionsFrom_flags env.actionOk _ 0 _ e ha
            exact seg h1 h2
      · split at he
        · rcases List.mem_cons.mp he with h | he2
          · exact head h
          · simp only [List.mem_append] at he2
            rcases he2 with ((hp | hn) | ha) | hg
            · obtain ⟨h1, h2, -⟩ := insertParticipantsFrom_flags env characters
                t.options.characterAssignments _ t 0 _ e hp
              exact seg h1 h2
            · obtain ⟨h1, h2, -⟩ := noteEvents_flags _ _ t e hn
              exact seg h1 h2
            · obtain ⟨h1, h2⟩ := insertActionsFrom_flags env.actionOk _ 0 _ e ha
              exact seg h1 h2
            · obtain ⟨h1, h2⟩ := gameOverInsert_flags env _ _ _ _ e hg
              exact seg h1 h2
        · rcases List.mem_cons.mp he with h | he2
          · exact head h
          · simp only [List.mem_append] at he2
            rcases he2 with (((hp | hn) | ha) | hg) | htl
            · obtain ⟨h1, h2, -⟩ := insertParticipantsFrom_flags env characters
                t.options.characterAssignments _ t 0 _ e hp
              exact seg h1 h2
            · obtain ⟨h1, h2, -⟩ := noteEvents_flags _ _ t e hn
              exact seg h1 h2
            · obtain ⟨h1, h2⟩ := insertActionsFrom_flags env.actionOk _ 0 _ e ha
              exact seg h1 h2
            · obtain ⟨h1, h2⟩ := gameOverInsert_flags env _ _ _ _ e hg
              exact seg h1 h2
            · obtain ⟨h1, h2, -⟩ := writeDatabaseTail_flags env variants _ t e htl
              exact seg h1 h2

lemma writeDatabaseTail_ok (env : DBEnv) (variants : String → VariantInfo)
    (g : Game) (t : Table) (g' : Game)
    (h : (writeDatabaseTail env variants g t).1 = .ok g') : g' = g := by
  simp only [writeDatabaseTail] at h
  split at h
  · simp at h
  · split at h
    · exact (Except.ok.inj h).symm
    · simp at h

lemma writeDatabase_ok_shape (env : DBEnv) (variants : String → VariantInfo)
    (characters : String → Option CharacterInfo) (g : Game) (t : Table) (g' : Game)
    (h : (writeDatabase env variants characters g t).1 = .ok g') :
    ∃ gid, g' = { g with id := gid } := by
  simp only [writeDatabase] at h
  split at h
  · simp at h
  · rename_i gid _
    split at h
    · simp at h
    · split at h
      · simp at h
      · split at h
        · simp at h
        · exact ⟨gid, writeDatabaseTail_ok env variants _ t g' h⟩

lemma code_gt_normal_iff (ec : EndCondition) :
    (EndCondition.Normal.code < ec.code) ↔ ec ≠ .Normal := by
  cases ec <;> simp [EndCondition.code]

lemma gameAtDeckOrder_score (now : Int) (g : Game) :
    (gameAtDeckOrder now g).score
      = (if g.endCondition = .Normal then g.score else 0) := by
  simp only [gameAtDeckOrder]
  by_cases hec : g.endCondition = .Normal
  · rw [if_neg (by rw [code_gt_normal_iff]; simp [hec]), if_pos hec]
  · rw [if_pos ((code_gt_normal_iff g.endCondition).mpr hec), if_neg hec]

lemma spectatorLoop_class (specs : List Spectator) (tid gid : Int) :
    ∀ e ∈ spectatorLoopEvents specs tid gid,
      ∃ sp ∈ specs, ∃ s : Session, sp.session = some s ∧
        (e = .setStatus s.sid .sharedReplay ∨ e = .notifyAllUser s.sid ∨
         e = .notifyReplayLeader s.sid ∨ e = .notifyNoteList s.sid ∨
         e = .emitDatabaseID s.sid tid gid) := by
  intro e he
  simp only [spectatorLoopEvents, List.mem_flatMap] at he
  obtain ⟨sp, hsp, hm⟩ := he
  simp only [List.mem_append] at hm
  rcases hm with ((hst | hrl) | hnl) | hdb
  · rcases hs : sp.session with _ | s <;> rw [hs] at hst
    · simp at hst
    · rcases List.mem_cons.mp hst with rfl | hst2
      · exact ⟨sp, hsp, s, hs, Or.inl rfl⟩
      · rcases List.mem_singleton.mp hst2 with rfl
        exact ⟨sp, hsp, s, hs, Or.inr (Or.inl rfl)⟩
  · obtain ⟨s, hs, rfl⟩ := mem_emitTo hrl
    exact ⟨sp, hsp, s, hs, Or.inr (Or.inr (Or.inl rfl))⟩
  · obtain ⟨s, hs, rfl⟩ := mem_emitTo hnl
    exact ⟨sp, hsp, s, hs, Or.inr (Or.inr (Or.inr (Or.inl rfl)))⟩
  · obtain ⟨s, hs, rfl⟩ := mem_emitTo hdb
    exact ⟨sp, hsp, s, hs, Or.inr (Or.inr (Or.inr (Or.inr rfl)))⟩

lemma promotionOf_conv (variants : String → VariantInfo) (g : Game) (t : Table)
    (nm : String) :
    promotionOf variants { g with endTurn := g.turn, turn := g.turn - 1 }
      { t with replay := true, name := nm, progress := 100 }
      = promotionOf variants g t := rfl

lemma convert_events_class (variants : String → VariantInfo) (tables : Int → Bool)
    (g : Game) (t : Table) :
    ∀ e ∈ (convertToSharedReplay variants tables g t).events,
      e.isDBCall = false ∧ e.isHistoryEmit = false ∧
        (∀ sid, e.directTarget = some sid →
          ∃ sp ∈ (promotionOf variants g t).2, ∃ s : Session,
            sp.session = some s ∧ s.sid = sid) := by
  intro e he
  simp only [convertToSharedReplay, promotionOf_conv] at he
  split at he
  · rcases List.mem_singleton.mp he with rfl
    exact ⟨rfl, rfl, by simp [Event.directTarget]⟩
  · simp only [List.mem_append, List.mem_cons, List.mem_singleton,
      List.not_mem_nil, or_false] at he
    rcases he with (rfl | hl) | (rfl | rfl)
    · exact ⟨rfl, rfl, by simp [Event.directTarget]⟩
    · obtain ⟨sp, hsp, s, hs, hcase⟩ := spectatorLoop_class _ _ _ e hl
      rcases hcase with rfl | rfl | rfl | rfl | rfl <;>
        exact ⟨rfl, rfl, by
          intro sid hsid
          simp only [Event.directTarget, Option.some.injEq] at hsid
          first
            | exact ⟨sp, hsp, s, hs, hsid⟩
            | cases hsid⟩
    · exact ⟨rfl, rfl, by simp [Event.directTarget]⟩
    · exact ⟨rfl, rfl, by simp [Event.directTarget]⟩

lemma convert_game (variants : String → VariantInfo) (tables : Int → Bool)
    (g : Game) (t : Table) :
    (convertToSharedReplay variants tables g t).game
      = { g with endTurn := g.turn, turn := g.turn - 1 } := by
  simp only [convertToSharedReplay]
  split <;> rfl

lemma gameEnd_game_score (env : DBEnv) (d2s : Int → String)
    (variants : String → VariantInfo) (characters : String → Option CharacterInfo)
    (tables : Int → Bool) (now : Int) (g : Game) (t : Table) :
    (gameEnd env d2s variants characters tables now g t).game.score
      = (gameAtDeckOrder now g).score := by
  simp only [gameEnd]
  split
  · rfl
  · split
    · rfl
    · rename_i g3 heq
      obtain ⟨gid, rfl⟩ := writeDatabase_ok_shape env variants characters _ t g3 heq
      split
      · rfl
      · rw [convert_game]
        rfl

lemma historySegment_class (ps : List Player) (hist : GameHistory) :
    ∀ e ∈ ps.flatMap (fun p => emitTo p.session fun sid => .emitGameHistory sid hist),
      ∃ p ∈ ps, ∃ s : Session, p.session = some s ∧ e = .emitGameHistory s.sid hist := by
  intro e he
  simp only [List.mem_flatMap] at he
  obtain ⟨p, hp, hm⟩ := he
  obtain ⟨s, hs, rfl⟩ := mem_emitTo hm
  exact ⟨p, hp, s, hs, rfl⟩

lemma gameEnd_events_class (env : DBEnv) (d2s : Int → String)
    (variants : String → VariantInfo) (characters : String → Option CharacterInfo)
    (tables : Int → Bool) (now : Int) (g : Game) (t : Table) :
    ∀ e ∈ (gameEnd env d2s variants characters tables now g t).events,
      (∀ row, e = Event.dbInsertGame row →
        row = mkGameRow variants (gameAfterPreamble d2s now (gameAtDeckOrder now g)) t) ∧
      (∀ sid, e.directTarget = some sid →
        (∃ p ∈ t.players, ∃ s : Session, p.session = some s ∧ s.sid = sid) ∨
        (∃ sp ∈ (promotionOf variants g t).2, ∃ s : Session,
          sp.session = some s ∧ s.sid = sid)) := by
  intro e he
  have hpre : e ∈ endPreambleEvents (gameAtDeckOrder now g).players t →
      (∀ row, e = Event.dbInsertGame row →
        row = mkGameRow variants (gameAfterPreamble d2s now (gameAtDeckOrder now g)) t) ∧
      (∀ sid, e.directTarget = some sid →
        (∃ p ∈ t.players, ∃ s : Session, p.session = some s ∧ s.sid = sid) ∨
        (∃ sp ∈ (promotionOf variants g t).2, ∃ s : Session,
          sp.session = some s ∧ s.sid = sid)) := by
    intro hm
    obtain ⟨hdb, -, -, hdt⟩ := endPreamble_flags hm
    constructor
    · rintro row rfl; simp [Event.isDBCall] at hdb
    · intro sid hsid; rw [hdt] at hsid; cases hsid
  have hwdb : e ∈ (writeDatabase env variants characters
      (gameAfterPreamble d2s now (gameAtDeckOrder now g)) t).2 →
      (∀ row, e = Event.dbInsertGame row →
        row = mkGameRow variants (gameAfterPreamble d2s now (gameAtDeckOrder now g)) t) ∧
      (∀ sid, e.directTarget = some sid →
        (∃ p ∈ t.players, ∃ s : Session, p.session = some s ∧ s.sid = sid) ∨
        (∃ sp ∈ (promotionOf variants g t).2, ∃ s : Session,
          sp.session = some s ∧ s.sid = sid)) := by
    intro hm
    obtain ⟨hdb, hrow⟩ := writeDatabase_class env variants characters _ t e hm
    obtain ⟨-, -, hdt⟩ := isDBCall_flags e hdb
    exact ⟨hrow, fun sid hsid => by rw [hdt] at hsid; cases hsid⟩
  simp only [gameEnd] at he
  split at he
  · rcases List.mem_singleton.mp he with rfl
    exact ⟨(fun row h => by cases h), (fun sid h => by cases h)⟩
  · split at he
    · simp only [List.cons_append, List.mem_cons, List.mem_append] at he
      rcases he with rfl | hp | hw
      · exact ⟨(fun row h => by cases h), (fun sid h => by cases h)⟩
      · exact hpre hp
      · exact hwdb hw
    · rename_i g3 heq
      obtain ⟨gid, rfl⟩ := writeDatabase_ok_shape env variants characters _ t g3 heq
      split at he
      · simp only [List.cons_append, List.append_assoc, List.mem_cons, List.mem_append,
          List.mem_singleton, List.not_mem_nil, or_false] at he
        rcases he with rfl | hp | hw | rfl
        · exact ⟨(fun row h => by cases h), (fun sid h => by cases h)⟩
        · exact hpre hp
        · exact hwdb hw
        · exact ⟨(fun row h => by cases h), (fun sid h => by cases h)⟩
      · simp only [List.cons_append, List.append_assoc, List.mem_cons, List.mem_append,
          List.mem_singleton, List.not_mem_nil, or_false, false_or] at he
        rcases he with rfl | hp | hw | rfl | hh | hc
        · exact ⟨(fun row h => by cases h), (fun sid h => by cases h)⟩
        · exact hpre hp
        · exact hwdb hw
        · exact ⟨(fun row h => by cases h), (fun sid h => by cases h)⟩
        · obtain ⟨p, hp, s, hs, rfl⟩ := historySegment_class t.players _ e hh
          refine ⟨(fun row h => by cases h), fun sid hsid => ?_⟩
          simp only [Event.directTarget, Option.some.injEq] at hsid
          exact Or.inl ⟨p, hp, s, hs, hsid⟩
        · obtain ⟨h1, -, hdt⟩ := convert_events_class variants tables _ t e hc
          refine ⟨fun row h => ?_, fun sid hsid => Or.inr (hdt sid hsid)⟩
          rw [h] at h1
          simp [Event.isDBCall] at h1

/-- Example stand-in for `durationToString`. -/
def exD2s : Int → String := fun _ => "t"

/-- Example global table registry: every id present. -/
def exTables : Int → Bool := fun _ => true

/-- Example character table: no characters defined. -/
def exCharacters : String → Option CharacterInfo := fun _ => none

/-- Example variant table: a single variant shape for every name. -/
def exVariants : String → VariantInfo := fun _ => ⟨0, 25, 5⟩

/-- Example options with no modifiers. -/
def exOptsPlain : Options :=
  { variant := "No Variant", timed := false, timeBase := 0, timePerTurn := 0,
    speedrun := false, cardCycle := false, deckPlays := false, emptyClues := false,
    characterAssignments := false, replay := false }

/-- Example in-game players. -/
def exGamePlayerA : GamePlayer :=
  { name := "alice", index := 0, time := -60, hand := [], notes := [],
    character := "", characterMetadata := -1 }

/-- Second example in-game player. -/
def exGamePlayerB : GamePlayer :=
  { name := "bob", index := 1, time := -30, hand := [], notes := [],
    character := "", characterMetadata := -1 }

/-- An example game that ended normally. -/
def exGame : Game :=
  { id := 0, seed := "p2v0s1", score := 15, turn := 20, endTurn := 0,
    endCondition := .Normal, endPlayer := 0, deck := [], actions := [],
    actions2 := [], options := exOptsPlain, players := [exGamePlayerA, exGamePlayerB],
    tags := [], datetimeStarted := 100, datetimeFinished := 0 }

/-- Second example connected player. -/
def exPlayerB : Player := ⟨2, "bob", true, some ⟨6, false⟩⟩

/-- An example table with two connected players and no spectators. -/
def exTable : Table :=
  { id := 3, name := "test", owner := 1, players := [exPlayerW, exPlayerB],
    spectators := [], replay := false, progress := 0, chat := [],
    options := exOptsPlain }

/-- The example game, ended by termination instead. -/
def exGameTerm : Game := { exGame with endCondition := .Terminated }

/-- C7: for every game whose end condition is not Normal, `Game.End` forces the
score to 0 before any announcement or persistence — the final score and the
score on the persisted game row both carry the forced value; a Normal end
condition leaves the score unchanged. -/
theorem end_score_forced_zero (env : DBEnv) (d2s : Int → String)
    (variants : String → VariantInfo) (characters : String → Option CharacterInfo)
    (tables : Int → Bool) (now : Int) (g : Game) (t : Table) :
    (gameEnd env d2s variants characters tables now g t).game.score
      = (if g.endCondition = .Normal then g.score else 0) ∧
    (∀ row, Event.dbInsertGame row
        ∈ (gameEnd env d2s variants characters tables now g t).events →
      row.score = (if g.endCondition = .Normal then g.score else 0)) := by
  constructor
  · exact (gameEnd_game_score env d2s variants characters tables now g t).trans
      (gameAtDeckOrder_score now g)
  · intro row hrow
    have h := (gameEnd_events_class env d2s variants characters tables now g t
      _ hrow).1 row rfl
    rw [h]
    exact gameAtDeckOrder_score now g

/-- Witness for C7: a terminated game with in-play score 15 persists a game row
with score 0. -/
theorem end_score_forced_zero_witness :
    Event.dbInsertGame (mkGameRow exVariants
        (gameAfterPreamble exD2s 500 (gameAtDeckOrder 500 exGameTerm)) exTable)
      ∈ (gameEnd exEnvW exD2s exVariants exCharacters exTables 500 exGameTerm exTable).events ∧
    (mkGameRow exVariants (gameAfterPreamble exD2s 500 (gameAtDeckOrder 500 exGameTerm))
        exTable).score
      = (if exGameTerm.endCondition = .Normal then exGameTerm.score else 0) :=
  ⟨by decide,
    (end_score_forced_zero exEnvW exD2s exVariants exCharacters exTables 500
      exGameTerm exTable).2 _ (by decide)⟩

lemma gameEnd_game_actions (env : DBEnv) (d2s : Int → String)
    (variants : String → VariantInfo) (characters : String → Option CharacterInfo)
    (tables : Int → Bool) (now : Int) (g : Game) (t : Table)
    (hrep : g.options.replay = false) :
    (gameEnd env d2s variants characters tables now g t).game.actions
      = g.actions ++ [deckOrderAction g]
        ++ timingActions d2s g.options.timed g.players
        ++ [.text (totalTimeText d2s now g.datetimeStarted)] := by
  simp only [gameEnd]
  split
  · rename_i hcond
    exact absurd hcond (by simp [gameAtDeckOrder, hrep])
  · split
    · simp [gameAfterPreamble, gameAtDeckOrder]
    · rename_i g3 heq
      obtain ⟨gid, rfl⟩ := writeDatabase_ok_shape env variants characters _ t g3 heq
      split
      · simp [gameAfterPreamble, gameAtDeckOrder]
      · rw [convert_game]
        simp [gameAfterPreamble, gameAtDeckOrder]

/-- C5: for a game whose options mark it as a replay, `Game.End` appends
exactly one deck-order action listing every deck card, broadcasts it, and does
nothing else: no timing chat, unchanged turn counter, no persistence call, no
stats mutation, no table/registry change. -/
theorem end_replay_noop (env : DBEnv) (d2s : Int → String)
    (variants : String → VariantInfo) (characters : String → Option CharacterInfo)
    (tables : Int → Bool) (now : Int) (g : Game) (t : Table)
    (hrep : g.options.replay = true) :
    (gameEnd env d2s variants characters tables now g t).game.actions
        = g.actions ++ [deckOrderAction g] ∧
    (gameEnd env d2s variants characters tables now g t).game.turn = g.turn ∧
    (gameEnd env d2s variants characters tables now g t).events
        = [.notifyGameAction] ∧
    (gameEnd env d2s variants characters tables now g t).table = some t ∧
    (∀ i, (gameEnd env d2s variants characters tables now g t).tables i = tables i) := by
  have hc : (gameAtDeckOrder now g).options.replay = true := by
    simp [gameAtDeckOrder, hrep]
  rw [gameEnd, if_pos hc]
  exact ⟨rfl, rfl, rfl, rfl, fun i => rfl⟩

/-- The example game in replay mode. -/
def exGameReplay : Game :=
  { exGame with options := { exOptsPlain with replay := true } }

/-- Witness for C5: ending the replay-mode example game appends only the
deck-order action and emits a single game-action broadcast. -/
theorem end_replay_noop_witness :
    exGameReplay.options.replay = true ∧
    (gameEnd exEnvW exD2s exVariants exCharacters exTables 500 exGameReplay exTable).events
        = [.notifyGameAction] ∧
    (gameEnd exEnvW exD2s exVariants exCharacters exTables 500 exGameReplay exTable).game.turn
        = exGameReplay.turn :=
  ⟨rfl,
    (end_replay_noop exEnvW exD2s exVariants exCharacters exTables 500 exGameReplay
      exTable rfl).2.2.1,
    (end_replay_noop exEnvW exD2s exVariants exCharacters exTables 500 exGameReplay
      exTable rfl).2.1⟩

/-- C9: for a live (non-replay) game, `Game.End` appends one timing chat action
per player; a timed game reports the stored remaining clock value as-is, an
untimed game reports the negation of the stored (negative) clock value. -/
theorem end_timing_reports (env : DBEnv) (d2s : Int → String)
    (variants : String → VariantInfo) (characters : String → Option CharacterInfo)
    (tables : Int → Bool) (now : Int) (g : Game) (t : Table)
    (hrep : g.options.replay = false) :
    (gameEnd env d2s variants characters tables now g t).game.actions
      = g.actions ++ [deckOrderAction g]
        ++ timingActions d2s g.options.timed g.players
        ++ [.text (totalTimeText d2s now g.datetimeStarted)] ∧
    (g.options.timed = true → ∀ p : GamePlayer,
      timingText d2s g.options.timed p = p.name ++ " had " ++ d2s p.time ++ " left") ∧
    (g.options.timed = false → ∀ p : GamePlayer,
      timingText d2s g.options.timed p = p.name ++ " took: " ++ d2s (-p.time)) := by
  refine ⟨gameEnd_game_actions env d2s variants characters tables now g t hrep, ?_, ?_⟩
  · intro ht p
    simp only [timingText, ht, if_true, String.append_assoc]
    congr 1
  · intro ht p
    have hneg : p.time * -1 = -p.time := by ring
    simp only [timingText, ht, if_false, Bool.false_eq_true, hneg, String.append_assoc]
    congr 1

/-- Witness for C9: the untimed example game reports the negated stored clock
for player alice (stored -60). -/
theorem end_timing_reports_witness :
    exGame.options.replay = false ∧
    timingText exD2s exGame.options.timed exGamePlayerA
      = exGamePlayerA.name ++ " took: " ++ exD2s (-exGamePlayerA.time) :=
  ⟨rfl,
    (end_timing_reports exEnvW exD2s exVariants exCharacters exTables 500 exGame
      exTable rfl).2.2 rfl exGamePlayerA⟩

/-- Witness for C4: the plain 2-player example game (no modifiers, score 15
against stored best 10) issues the variant-stats update. -/
theorem variantStats_update_witness :
    (exEnvW.insertGame (mkGameRow exVariants exGame exTable) = .ok 7 ∧
     (insertParticipantsFrom exEnvW exCharacters exTable.options.characterAssignments
        7 exTable 0 exGame.players).1 = .ok () ∧
     (insertActionsFrom exEnvW.actionOk 7 0 exGame.actions2).1 = .ok () ∧
     (gameOverInsert exEnvW 7 exGame.endCondition exGame.endPlayer
        exGame.actions2.length).1 = .ok () ∧
     exEnvW.variantStatsGet = .ok ⟨[⟨10, 0⟩]⟩ ∧
     exGame.players.length - 2 < ([⟨10, 0⟩] : List BestScore).length) ∧
    Event.dbUpdateVariantStats (exVariants exGame.options.variant).id
        (exVariants exGame.options.variant).maxScore
        (variantStatsNewRow exGame.options exGame.players.length exGame.score ⟨[⟨10, 0⟩]⟩)
      ∈ (writeDatabase exEnvW exVariants exCharacters exGame exTable).2 :=
  ⟨⟨rfl, rfl, rfl, rfl, rfl, by decide⟩,
    (variantStats_update exEnvW exVariants exCharacters exGame exTable 7 ⟨[⟨10, 0⟩]⟩
      rfl rfl rfl rfl rfl (by decide)).1⟩

/-- C3: if the durable write (`WriteDatabase`) or the subsequent same-seed
count query fails, `Game.End` returns early: the table survives unconverted,
the registry is untouched, no gameHistory emit and no conversion
broadcast appears anywhere in the trace, and everything notified before the
write remains exactly as already sent (a prefix of the trace). -/
theorem end_write_failure_aborts (env : DBEnv) (d2s : Int → String)
    (variants : String → VariantInfo) (characters : String → Option CharacterInfo)
    (tables : Int → Bool) (now : Int) (g : Game) (t : Table)
    (hrep : g.options.replay = false)
    (hfail : (writeDatabase env variants characters
        (gameAfterPreamble d2s now (gameAtDeckOrder now g)) t).1 = .error ()
      ∨ env.numSimilar = .error ()) :
    (gameEnd env d2s variants characters tables now g t).table = some t ∧
    (∀ i, (gameEnd env d2s variants characters tables now g t).tables i = tables i) ∧
    (∃ rest, (gameEnd env d2s variants characters tables now g t).events
      = Event.notifyGameAction :: endPreambleEvents g.players t ++ rest) ∧
    (∀ e ∈ (gameEnd env d2s variants characters tables now g t).events,
      e.isHistoryEmit = false ∧ e.isConversionBroadcast = false) := by
  have hc : ¬ (gameAtDeckOrder now g).options.replay = true := by
    simp [gameAtDeckOrder, hrep]
  have hclass : ∀ e : Event,
      (e = Event.notifyGameAction ∨
        e ∈ endPreambleEvents (gameAtDeckOrder now g).players t ∨
        e ∈ (writeDatabase env variants characters
          (gameAfterPreamble d2s now (gameAtDeckOrder now g)) t).2 ∨
        (∃ s, e = Event.dbGetNumSimilar s)) →
      e.isHistoryEmit = false ∧ e.isConversionBroadcast = false := by
    rintro e (rfl | hp | hw | ⟨s, rfl⟩)
    · exact ⟨rfl, rfl⟩
    · obtain ⟨-, h1, h2, -⟩ := endPreamble_flags hp
      exact ⟨h1, h2⟩
    · obtain ⟨hdb, -⟩ := writeDatabase_class env variants characters _ t e hw
      obtain ⟨h1, h2, -⟩ := isDBCall_flags e hdb
      exact ⟨h1, h2⟩
    · exact ⟨rfl, rfl⟩
  rcases hw : (writeDatabase env variants characters
      (gameAfterPreamble d2s now (gameAtDeckOrder now g)) t).1 with u | g3
  · have hres : gameEnd env d2s variants characters tables now g t
        = ⟨gameAfterPreamble d2s now (gameAtDeckOrder now g), some t, tables,
           Event.notifyGameAction :: (endPreambleEvents (gameAtDeckOrder now g).players t
             ++ (writeDatabase env variants characters
                  (gameAfterPreamble d2s now (gameAtDeckOrder now g)) t).2)⟩ := by
      rw [gameEnd, if_neg hc]
      simp only [hw, List.cons_append]
    rw [hres]
    refine ⟨rfl, fun i => rfl, ⟨(writeDatabase env variants characters
      (gameAfterPreamble d2s now (gameAtDeckOrder now g)) t).2, rfl⟩, ?_⟩
    intro e he
    simp only [List.mem_cons, List.mem_append] at he
    rcases he with rfl | hp | hww
    · exact hclass _ (Or.inl rfl)
    · exact hclass e (Or.inr (Or.inl hp))
    · exact hclass e (Or.inr (Or.inr (Or.inl hww)))
  · have hn : env.numSimilar = .error () := by
      rcases hfail with hmm | hn
      · rw [hw] at hmm; cases hmm
      · exact hn
    have hres : gameEnd env d2s variants characters tables now g t
        = ⟨g3, some t, tables,
           Event.notifyGameAction :: ((endPreambleEvents (gameAtDeckOrder now g).players t
             ++ (writeDatabase env variants characters
                  (gameAfterPreamble d2s now (gameAtDeckOrder now g)) t).2)
             ++ [Event.dbGetNumSimilar g3.seed])⟩ := by
      rw [gameEnd, if_neg hc]
      simp only [hw, hn, List.cons_append]
    rw [hres]
    refine ⟨rfl, fun i => rfl, ⟨(writeDatabase env variants characters
      (gameAfterPreamble d2s now (gameAtDeckOrder now g)) t).2
        ++ [Event.dbGetNumSimilar g3.seed], by simp [gameAtDeckOrder]⟩, ?_⟩
    intro e he
    simp only [List.mem_cons, List.mem_append, List.mem_singleton,
      List.not_mem_nil, or_false] at he
    rcases he with rfl | (hp | hww) | rfl
    · exact hclass _ (Or.inl rfl)
    · exact hclass e (Or.inr (Or.inl hp))
    · exact hclass e (Or.inr (Or.inr (Or.inl hww)))
    · exact hclass _ (Or.inr (Or.inr (Or.inr ⟨_, rfl⟩)))

/-- The example oracle where the game-row insert fails. -/
def exEnvFail : DBEnv := { exEnvW with insertGame := fun _ => .error () }

/-- Witness for C3: with a failing game-row insert, the example game's end
sequence leaves the table alone and broadcasts no history or conversion
message. -/
theorem end_write_failure_aborts_witness :
    (exGame.options.replay = false ∧
     (writeDatabase exEnvFail exVariants exCharacters
        (gameAfterPreamble exD2s 500 (gameAtDeckOrder 500 exGame)) exTable).1
       = .error ()) ∧
    (gameEnd exEnvFail exD2s exVariants exCharacters exTables 500 exGame exTable).table
      = some exTable ∧
    (∀ e ∈ (gameEnd exEnvFail exD2s exVariants exCharacters exTables 500 exGame
        exTable).events,
      e.isHistoryEmit = false ∧ e.isConversionBroadcast = false) :=
  ⟨⟨rfl, rfl⟩,
    (end_write_failure_aborts exEnvFail exD2s exVariants exCharacters exTables 500
      exGame exTable rfl (Or.inl rfl)).1,
    (end_write_failure_aborts exEnvFail exD2s exVariants exCharacters exTables 500
      exGame exTable rfl (Or.inl rfl)).2.2.2⟩

lemma insertActionsFrom_allOk (ok : Nat → Bool) (gid : Int)
    (h : ∀ i, ok i = true) :
    ∀ i acts, insertActionsFrom ok gid i acts
      = (.ok (), (withIndexFrom i acts).map fun ia => .dbInsertAction gid ia.1 ia.2) := by
  intro i acts
  induction acts generalizing i with
  | nil => simp [insertActionsFrom, withIndexFrom]
  | cons a rest ih => simp [insertActionsFrom, withIndexFrom, h i, ih]

lemma filter_actionInsert_nil (l : List Event)
    (h : ∀ e ∈ l, e.isActionInsert = false) :
    l.filter Event.isActionInsert = [] := by
  induction l with
  | nil => rfl
  | cons x xs ih =>
    rw [List.filter_cons, if_neg (by simp [h x (List.mem_cons_self x xs)])]
    exact ih fun e he => h e (List.mem_cons_of_mem x he)

lemma filter_actionInsert_self (l : List Event)
    (h : ∀ e ∈ l, e.isActionInsert = true) :
    l.filter Event.isActionInsert = l := by
  induction l with
  | nil => rfl
  | cons x xs ih =>
    rw [List.filter_cons, if_pos (by simp [h x (List.mem_cons_self x xs)])]
    rw [ih fun e he => h e (List.mem_cons_of_mem x he)]

lemma gameOverInsert_ok (env : DBEnv) (gid : Int) (ec : EndCondition) (ep : Int)
    (ni : Nat) (hgo : env.gameOverOk = true) :
    (gameOverInsert env gid ec ep ni).1 = .ok () := by
  simp only [gameOverInsert]
  split
  · rfl
  · simp [hgo]

/-- C8: when persisting actions, each live action is inserted at the index
equal to its position in `g.Actions2`, and a game-over pseudo-action is
inserted exactly when the end condition is Timeout, Terminated or IdleTimeout,
at the next free index after all real actions, without being appended to the
in-memory action array. -/
theorem write_action_indices (env : DBEnv) (variants : String → VariantInfo)
    (characters : String → Option CharacterInfo) (g : Game) (t : Table) (gid : Int)
    (hins : env.insertGame (mkGameRow variants g t) = .ok gid)
    (hp : (insertParticipantsFrom env characters t.options.characterAssignments
      gid t 0 g.players).1 = .ok ())
    (ha : ∀ i, env.actionOk i = true)
    (hgo : env.gameOverOk = true) :
    (writeDatabase env variants characters g t).2.filter Event.isActionInsert
      = ((withIndexFrom 0 g.actions2).map fun ia => Event.dbInsertAction gid ia.1 ia.2)
        ++ (gameOverAction g.endCondition g.endPlayer).elim []
            (fun a => [Event.dbInsertAction gid g.actions2.length a]) ∧
    ((gameOverAction g.endCondition g.endPlayer).isSome = true ↔
      (g.endCondition = .Timeout ∨ g.endCondition = .Terminated ∨
       g.endCondition = .IdleTimeout)) ∧
    (∀ g', (writeDatabase env variants characters g t).1 = .ok g' →
      g'.actions2 = g.actions2) := by
  refine ⟨?_, ?_, ?_⟩
  · have har := insertActionsFrom_allOk env.actionOk gid ha 0 g.actions2
    have hgoOk := gameOverInsert_ok env gid g.endCondition g.endPlayer
      g.actions2.length hgo
    simp only [writeDatabase, hins, hp, har, hgoOk]
    rw [List.filter_cons, if_neg (by simp [Event.isActionInsert])]
    rw [List.filter_append, List.filter_append, List.filter_append, List.filter_append]
    rw [filter_actionInsert_nil _ (fun e he => (insertParticipantsFrom_flags env
      characters t.options.characterAssignments gid t 0 g.players e he).2.2)]
    rw [filter_actionInsert_nil _ (fun e he => (noteEvents_flags gid _ t e he).2.2)]
    rw [filter_actionInsert_self _ (fun e he => by
      simp only [List.mem_map] at he
      obtain ⟨ia, -, rfl⟩ := he
      rfl)]
    rw [filter_actionInsert_nil _ (fun e he =>
      (writeDatabaseTail_flags env variants _ t e he).2.2)]
    have hgr : (gameOverInsert env gid g.endCondition g.endPlayer
        g.actions2.length).2.filter Event.isActionInsert
        = (gameOverAction g.endCondition g.endPlayer).elim []
            (fun a => [Event.dbInsertAction gid g.actions2.length a]) := by
      simp only [gameOverInsert]
      split
      · rename_i heqn
        rw [heqn]
        rfl
      · rename_i a heqa
        rw [heqa]
        rfl
    rw [hgr]
    simp
  · cases g.endCondition <;> simp [gameOverAction]
  · intro g' h
    obtain ⟨gid2, rfl⟩ := writeDatabase_ok_shape env variants characters g t g' h
    rfl

/-- The example game ended by termination with two recorded actions. -/
def exGameActs : Game :=
  { exGameTerm with actions2 := [⟨.other 0, 0, 0⟩, ⟨.other 1, 1, 0⟩] }

/-- Witness for C8: two recorded actions go in at indices 0 and 1 and the
terminated game's game-over pseudo-action goes in at index 2. -/
theorem write_action_indices_witness :
    (exEnvW.insertGame (mkGameRow exVariants exGameActs exTable) = .ok 7 ∧
     (insertParticipantsFrom exEnvW exCharacters exTable.options.characterAssignments
        7 exTable 0 exGameActs.players).1 = .ok () ∧
     exEnvW.gameOverOk = true) ∧
    (writeDatabase exEnvW exVariants exCharacters exGameActs exTable).2.filter
        Event.isActionInsert
      = ((withIndexFrom 0 exGameActs.actions2).map
          fun ia => Event.dbInsertAction 7 ia.1 ia.2)
        ++ (gameOverAction exGameActs.endCondition exGameActs.endPlayer).elim []
            (fun a => [Event.dbInsertAction 7 exGameActs.actions2.length a]) :=
  ⟨⟨rfl, rfl, rfl⟩,
    (write_action_indices exEnvW exVariants exCharacters exGameActs exTable 7
      rfl rfl (fun _ => rfl) rfl).1⟩

lemma promote_foldl_specs (nl : Nat) (ow : Int) (ec : EndCondition) :
    ∀ (ps : List Player) (b : Bool) (acc : List Spectator),
      (ps.foldl (promoteStep nl ow ec) (b, acc)).2
        = acc ++ (if ec = .IdleTimeout then []
                  else (ps.filter fun p => p.present).map (mkSpectator nl)) := by
  intro ps
  induction ps with
  | nil => intro b acc; simp
  | cons p rest ih =>
    intro b acc
    by_cases hec : ec = .IdleTimeout
    · subst hec
      by_cases hp : p.present <;>
        simp [List.foldl_cons, promoteStep, hp, ih, List.filter_cons]
    · have hbeq : (ec == EndCondition.IdleTimeout) = false := by simp [hec]
      by_cases hp : p.present <;>
        simp [List.foldl_cons, promoteStep, hp, hbeq, hec, ih, List.filter_cons]

lemma promotionOf_specs (variants : String → VariantInfo) (g : Game) (t : Table) :
    (promotionOf variants g t).2
      = t.spectators
        ++ (if g.endCondition = .IdleTimeout then []
            else (t.players.filter fun p => p.present).map
              (mkSpectator (notesLenOf variants g t))) :=
  promote_foldl_specs _ _ _ t.players false t.spectators

/-- C6: under an IdleTimeout end condition, `ConvertToSharedReplay` promotes no
player to a spectator, and whenever the resulting spectator set is empty the
table is deleted from the global registry and the conversion stops; a
surviving replay table always has a non-empty spectator set. -/
theorem convert_idle_timeout (variants : String → VariantInfo) (tables : Int → Bool)
    (g : Game) (t : Table) (hidle : g.endCondition = .IdleTimeout) :
    (promotionOf variants g t).2 = t.spectators ∧
    (∀ t', (convertToSharedReplay variants tables g t).table = some t' →
      t'.spectators = t.spectators ∧ t'.spectators ≠ []) ∧
    (t.spectators = [] →
      (convertToSharedReplay variants tables g t).table = none ∧
      (convertToSharedReplay variants tables g t).tables t.id = false ∧
      (convertToSharedReplay variants tables g t).events = [.deleteTable t.id]) := by
  have hpr : (promotionOf variants g t).2 = t.spectators := by
    rw [promotionOf_specs, if_pos hidle, List.append_nil]
  refine ⟨hpr, ?_, ?_⟩
  · intro t' ht'
    simp only [convertToSharedReplay, promotionOf_conv] at ht'
    split at ht'
    · cases ht'
    · rename_i hne
      have hnnil : (promotionOf variants g t).2 ≠ [] := by
        intro hnil
        rw [hnil] at hne
        exact hne rfl
      cases hb : (promotionOf variants g t).1 <;> rw [hb] at ht'
      · simp only [Bool.false_eq_true, if_false] at ht'
        cases ht'
        exact ⟨hpr, hnnil⟩
      · simp only [if_true] at ht'
        cases ht'
        exact ⟨hpr, hnnil⟩
  · intro hts
    have hie : (promotionOf variants g t).2.isEmpty = true := by
      rw [hpr, hts]; rfl
    refine ⟨?_, ?_, ?_⟩ <;>
      simp [convertToSharedReplay, promotionOf_conv, hie]

/-- The example game ended by idle timeout. -/
def exGameIdle : Game := { exGame with endCondition := .IdleTimeout }

/-- Witness for C6: the idle-timed-out example game promotes nobody and its
table is deleted from the registry. -/
theorem convert_idle_timeout_witness :
    (exGameIdle.endCondition = .IdleTimeout ∧ exTable.spectators = []) ∧
    (promotionOf exVariants exGameIdle exTable).2 = exTable.spectators ∧
    (convertToSharedReplay exVariants exTables exGameIdle exTable).table = none ∧
    (convertToSharedReplay exVariants exTables exGameIdle exTable).tables exTable.id
      = false ∧
    (convertToSharedReplay exVariants exTables exGameIdle exTable).events
      = [.deleteTable exTable.id] :=
  ⟨⟨rfl, rfl⟩,
    (convert_idle_timeout exVariants exTables exGameIdle exTable rfl).1,
    (convert_idle_timeout exVariants exTables exGameIdle exTable rfl).2.2 rfl⟩

lemma find?_eq_filter_head (ps : List Player) :
    ps.find? (fun p => p.present) = (ps.filter fun p => p.present).head? := by
  induction ps with
  | nil => rfl
  | cons p rest ih =>
    by_cases hp : p.present
    · rw [List.find?_cons_of_pos _ hp, List.filter_cons_of_pos hp]
      rfl
    · rw [List.find?_cons_of_neg _ (by simp [hp]), List.filter_cons_of_neg (by simp [hp]), ih]

/-- C1: when leader reassignment is flagged and the promoted spectator set is
non-empty (spectators never exist before conversion, spec section 3), the
elected leader is the first present original player in seating order, and that
player is a connected identity (present players have live sessions). -/
theorem convert_leader_election (variants : String → VariantInfo)
    (tables : Int → Bool) (g : Game) (t : Table)
    (hspecs : t.spectators = [])
    (hconn : ∀ p ∈ t.players, p.present = true → sessionGone p.session = false)
    (hflag : (promotionOf variants g t).1 = true)
    (hne : (promotionOf variants g t).2 ≠ []) :
    ∃ t' p0, (convertToSharedReplay variants tables g t).table = some t' ∧
      t.players.find? (fun p => p.present) = some p0 ∧
      t'.owner = p0.id ∧ p0.present = true ∧ sessionGone p0.session = false := by
  have hprs := promotionOf_specs variants g t
  rw [hspecs, List.nil_append] at hprs
  have hni : ¬ g.endCondition = .IdleTimeout := by
    intro hidle
    rw [hprs, if_pos hidle] at hne
    exact hne rfl
  rw [if_neg hni] at hprs
  rcases hfc : t.players.filter (fun p => p.present) with _ | ⟨p0, rest⟩
  · rw [hfc] at hprs
    rw [hprs] at hne
    exact absurd rfl hne
  have hfind : t.players.find? (fun p => p.present) = some p0 := by
    rw [find?_eq_filter_head, hfc]
    rfl
  have hp0 : p0 ∈ t.players ∧ p0.present = true := by
    have : p0 ∈ t.players.filter fun p => p.present := by
      rw [hfc]; exact List.mem_cons_self p0 rest
    exact ⟨(List.mem_filter.mp this).1, (List.mem_filter.mp this).2⟩
  have helect : electOwner t.players (promotionOf variants g t).2 = p0.id := by
    simp only [electOwner, hfind]
    by_cases hid : p0.id = -1
    · rw [if_neg (by simp [hid])]
    · rw [if_pos hid]
      rw [hprs, hfc]
      rfl
  have hie : (promotionOf variants g t).2.isEmpty = false := by
    rw [hprs, hfc]
    rfl
  obtain ⟨t', ht', howner⟩ : ∃ t',
      (convertToSharedReplay variants tables g t).table = some t' ∧
        t'.owner = electOwner t.players (promotionOf variants g t).2 := by
    simp only [convertToSharedReplay, promotionOf_conv, hie, Bool.false_eq_true,
      if_false, hflag, if_true]
    exact ⟨_, rfl, rfl⟩
  exact ⟨t', p0, ht', hfind, howner.trans helect, hp0.2, hconn p0 hp0.1 hp0.2⟩

/-- The example owner, fully disconnected and absent. -/
def exPlayerOwnerGone : Player := ⟨1, "alice", false, none⟩

/-- The example table whose owner is offline while bob is still present. -/
def exTableOwnerGone : Table :=
  { exTable with owner := 1, players := [exPlayerOwnerGone, exPlayerB] }

/-- Witness for C1: with the owner offline and bob present, the conversion
elects bob (the first present player), a connected identity. -/
theorem convert_leader_election_witness :
    (exTableOwnerGone.spectators = [] ∧
     (∀ p ∈ exTableOwnerGone.players, p.present = true →
        sessionGone p.session = false) ∧
     (promotionOf exVariants exGame exTableOwnerGone).1 = true ∧
     (promotionOf exVariants exGame exTableOwnerGone).2 ≠ []) ∧
    (∃ t' p0,
      (convertToSharedReplay exVariants exTables exGame exTableOwnerGone).table
        = some t' ∧
      exTableOwnerGone.players.find? (fun p => p.present) = some p0 ∧
      t'.owner = p0.id ∧ p0.present = true ∧ sessionGone p0.session = false) :=
  ⟨⟨rfl, by decide, by decide, by decide⟩,
    convert_leader_election exVariants exTables exGame exTableOwnerGone rfl
      (by decide) (by decide) (by decide)⟩

lemma promoted_origin (variants : String → VariantInfo) (g : Game) (t : Table) :
    ∀ sp ∈ (promotionOf variants g t).2,
      sp ∈ t.spectators ∨
        ∃ p ∈ t.players, p.present = true ∧ sp.session = p.session := by
  intro sp hsp
  rw [promotionOf_specs] at hsp
  rcases List.mem_append.mp hsp with h | h
  · exact Or.inl h
  · split at h
    · simp at h
    · simp only [List.mem_map] at h
      obtain ⟨p, hpf, rfl⟩ := h
      exact Or.inr ⟨p, (List.mem_filter.mp hpf).1, (List.mem_filter.mp hpf).2, rfl⟩

/-- C10: every direct per-connection message of the end/conversion path — the
gameHistory emit to each player in `End`, and the replay-leader, note-list and
databaseID pushes to each spectator in `ConvertToSharedReplay` — is addressed
to a participant holding a live (non-null) connection handle; participants
with a null handle are skipped and no delivery targets them. -/
theorem end_direct_messages_live (env : DBEnv) (d2s : Int → String)
    (variants : String → VariantInfo) (characters : String → Option CharacterInfo)
    (tables : Int → Bool) (now : Int) (g : Game) (t : Table) :
    ∀ e ∈ (gameEnd env d2s variants characters tables now g t).events,
      ∀ sid, e.directTarget = some sid →
        ∃ s : Session, s.sid = sid ∧
          ((∃ p ∈ t.players, p.session = some s) ∨
           (∃ sp ∈ t.spectators, sp.session = some s)) := by
  intro e he sid hsid
  rcases (gameEnd_events_class env d2s variants characters tables now g t e he).2
      sid hsid with ⟨p, hp, s, hs, hss⟩ | ⟨sp, hsp, s, hs, hss⟩
  · exact ⟨s, hss, Or.inl ⟨p, hp, hs⟩⟩
  · rcases promoted_origin variants g t sp hsp with hsp0 | ⟨p, hp, -, hsess⟩
    · exact ⟨s, hss, Or.inr ⟨sp, hsp0, hs⟩⟩
    · exact ⟨s, hss, Or.inl ⟨p, hp, by rw [← hsess]; exact hs⟩⟩

/-- Witness for C10: the example end sequence pushes the databaseID to alice's
session (sid 5), which is a live handle of a table participant. -/
theorem end_direct_messages_live_witness :
    (Event.emitDatabaseID 5 3 7
        ∈ (gameEnd exEnvW exD2s exVariants exCharacters exTables 500 exGame
            exTable).events ∧
     (Event.emitDatabaseID 5 3 7).directTarget = some 5) ∧
    (∃ s : Session, s.sid = 5 ∧
      ((∃ p ∈ exTable.players, p.session = some s) ∨
       (∃ sp ∈ exTable.spectators, sp.session = some s))) :=
  ⟨⟨by decide, rfl⟩,
    end_direct_messages_live exEnvW exD2s exVariants exCharacters exTables 500
      exGame exTable (Event.emitDatabaseID 5 3 7) (by decide) 5 rfl⟩
